import Mathlib

/-!
Verification development for the `windows-path-bashrc` repository.

The repository contains two implementations of the same pipeline: the
package `windows_path_bashrc/__init__.py` (current) and the legacy script
`main.py`.  The definitions below are shallow embeddings of the Python
functions; filesystem and process effects are modelled by explicit
parameters (an `Fs` record of query functions, a `Runner` for external
processes, an `InstallState` for the two files the installer touches).
-/

/-- Boolean contiguous-substring test on character lists, modelling the
Python `needle in haystack` operator for strings. -/
def infixOfB (needle : List Char) : List Char → Bool
  | [] => needle.isEmpty
  | c :: t => needle.isPrefixOf (c :: t) || infixOfB needle t

/-- Count of occurrence positions of `needle` in a character list (every
index at which `needle` is a prefix of the remaining suffix). -/
def occCount (needle : List Char) : List Char → Nat
  | [] => if needle.isPrefixOf [] then 1 else 0
  | c :: t => (if needle.isPrefixOf (c :: t) then 1 else 0) + occCount needle t

/-- String-level wrapper for `infixOfB`: `strContains hay needle` models the
Python expression `needle in hay`. -/
def strContains (hay needle : String) : Bool :=
  infixOfB needle.toList hay.toList

/-- String-level occurrence count. -/
def occCountS (needle hay : String) : Nat :=
  occCount needle.toList hay.toList

/-- Model of Python `ntpath.join(d, f)` for a relative second component:
no separator is inserted when `d` is empty or already ends in a separator
(`\`, `/`, or a drive colon). -/
def ntjoin (d f : String) : String :=
  match d.toList.getLast? with
  | none => f
  | some c => if c = '\\' ∨ c = '/' ∨ c = ':' then d ++ f else d ++ "\\" ++ f

/-- Model of Python `s.split(";")` on character lists: splitting at every
separator, keeping empty segments (`"".split(";") == [""]`). -/
def splitSemis : List Char → List (List Char)
  | [] => [[]]
  | c :: t =>
    match splitSemis t with
    | [] => [[]]
    | g :: gs => if c = ';' then [] :: g :: gs else (c :: g) :: gs

/-- Model of Python `str.rstrip("\\")`: remove every trailing backslash. -/
def pyRstripBackslash (s : String) : String :=
  String.mk ((s.toList.reverse.dropWhile (fun c => decide (c = '\\'))).reverse)

/-- Hex digit used by `json.encoder` when emitting `\uXXXX` escapes. -/
def hexDigit (n : Nat) : Char :=
  if n < 10 then Char.ofNat ('0'.toNat + n) else Char.ofNat ('a'.toNat + n - 10)

/-- Escape of a single character as performed by
`json.encoder.encode_basestring` (imported as `double_quote` in the
source): backslash and double quote get a backslash escape, control
characters get their short escape or a `\u00XX` escape, everything else is
passed through. -/
def jsonEscapeChar (c : Char) : List Char :=
  if c = '\\' then ['\\', '\\']
  else if c = '"' then ['\\', '"']
  else if c.toNat < 32 then
    if c = '\x08' then ['\\', 'b']
    else if c = '\x0c' then ['\\', 'f']
    else if c = '\n' then ['\\', 'n']
    else if c = '\r' then ['\\', 'r']
    else if c = '\t' then ['\\', 't']
    else '\\' :: 'u' :: '0' :: '0' :: hexDigit (c.toNat / 16) :: [hexDigit (c.toNat % 16)]
  else [c]

/-- Model of `json.encoder.encode_basestring`, bound to the name
`double_quote` in both source files: wrap in double quotes, escaping each
character as `jsonEscapeChar` does. -/
def double_quote (s : String) : String :=
  String.mk ('"' :: (s.toList.map jsonEscapeChar).flatten ++ ['"'])

/-- Abstract view of the filesystem queries the classifier performs:
`os.path.isfile`, `os.path.exists`, and `os.path.samefile`. -/
structure Fs where
  isfile : String → Bool
  pathExists : String → Bool
  samefile : String → String → Bool

namespace WindowsPathBashrc

/-- Result record of `split_path` in `windows_path_bashrc/__init__.py`:
the dict with the always-present `prepend`/`append` lists and the
optionally-assigned single-valued `vscode`/`ssh` keys. -/
structure SplitResult where
  prepend : List String
  append : List String
  vscode : Option String := none
  ssh : Option String := none
  deriving DecidableEq, Repr

/-- Editor-install substring tested by `__init__.py` line 77.  The Python
source writes the raw string `r"Microsoft VS Code\\bin"`, whose value
contains two consecutive backslashes. -/
def vscodeSub : String := "Microsoft VS Code\\\\bin"

/-- WindowsApps path fragment joined by `__init__.py` line 69.  The raw
string `r"Microsoft\\WindowsApps"` likewise contains doubled backslashes. -/
def windowsappsFragment : String := "Microsoft\\\\WindowsApps"

/-- The `windowsapps_path` computed before the classification loop:
`os.path.join(localappdata, r"Microsoft\\WindowsApps")` when
`LOCALAPPDATA` is set, `None` otherwise. -/
def waOf (localappdata : Option String) : Option String :=
  localappdata.map (fun l => ntjoin l windowsappsFragment)

/-- Drop condition of the classification loop (line 74):
`windowsapps_path is not None and os.path.exists(d) and os.path.samefile(windowsapps_path, d)`. -/
def dropCond (fs : Fs) (wa : Option String) (d : String) : Bool :=
  match wa with
  | some w => fs.pathExists d && fs.samefile w d
  | none => false

/-- Names of the five mutually exclusive branches of the classification
loop body. -/
inductive Cat where
  | dropped
  | vscode
  | ssh
  | prepend
  | append
  deriving DecidableEq, Repr

/-- Which branch of the loop body of `split_path` fires for directory `d`:
the source tests, in order, the WindowsApps drop condition, the editor
substring, `ssh.exe`, `python.exe`, `pip.exe`, and otherwise appends. -/
def classify (fs : Fs) (wa : Option String) (d : String) : Cat :=
  if dropCond fs wa d then .dropped
  else if infixOfB vscodeSub.toList d.toList then .vscode
  else if fs.isfile (ntjoin d "ssh.exe") then .ssh
  else if fs.isfile (ntjoin d "python.exe") then .prepend
  else if fs.isfile (ntjoin d "pip.exe") then .prepend
  else .append

/-- One iteration of the classification loop: the branch named by
`classify` performs its update of the accumulated dict. -/
def split_step (fs : Fs) (wa : Option String) (st : SplitResult) (d : String) : SplitResult :=
  match classify fs wa d with
  | .dropped => st
  | .vscode => { st with vscode := some d }
  | .ssh => { st with ssh := some d }
  | .prepend => { st with prepend := st.prepend ++ [d] }
  | .append => { st with append := st.append ++ [d] }

/-- Embedding of `split_path` from `windows_path_bashrc/__init__.py`
(lines 61–95), with the filesystem and the `LOCALAPPDATA` value passed
explicitly. -/
def split_path (fs : Fs) (localappdata : Option String) (dirs : List String) : SplitResult :=
  dirs.foldl (split_step fs (waOf localappdata)) { prepend := [], append := [] }

/-- Last element of a list as an `Option`, falling back to a previous
value: the "last assignment wins" semantics of the single-valued dict
slots. -/
def lastMatch : List String → Option String → Option String
  | [], fb => fb
  | x :: xs, _ => lastMatch xs (some x)

/-- Size contributed by a single-valued slot: one when populated. -/
def optSize : Option String → Nat
  | none => 0
  | some _ => 1

/-- Number of input directories a run of `split_path` classifies into a
given branch. -/
def catCount (fs : Fs) (localappdata : Option String) (c : Cat) (dirs : List String) : Nat :=
  (dirs.filter (fun d => decide (classify fs (waOf localappdata) d = c))).length

/-- Number of input directories dropped as the WindowsApps directory. -/
def droppedCount (fs : Fs) (localappdata : Option String) (dirs : List String) : Nat :=
  catCount fs localappdata .dropped dirs

end WindowsPathBashrc

/-- Filesystem on which every query answers negatively. -/
def fsEmpty : Fs := ⟨fun _ => false, fun _ => false, fun _ _ => false⟩

/-- Concrete filesystem fixture exercising every classifier branch:
`python.exe` under `C:\py`, `ssh.exe` under `C:\s`, and a directory
`DROPME` that exists and is identical to the WindowsApps directory. -/
def c1Fs : Fs :=
  ⟨fun p => p == "C:\\py\\python.exe" || p == "C:\\s\\ssh.exe",
   fun p => p == "DROPME",
   fun _ b => b == "DROPME"⟩

/-- Concrete directory list hitting, in order, the dropped, prepend,
append, vscode and ssh branches of the classifier. -/
def c1Dirs : List String :=
  ["DROPME", "C:\\py", "C:\\other", "x\\Microsoft VS Code\\\\bin", "C:\\s"]

namespace MainPy

/-- Result record of `split_path` in the legacy `main.py` (lines 67–122):
no `ssh` slot exists there. -/
structure SplitResult where
  prepend : List String
  append : List String
  vscode : Option String := none
  deriving DecidableEq, Repr

/-- Editor-install substring tested by `main.py` line 100: the ordinary
string `"Microsoft VS Code\\bin"`, whose value contains single
backslashes. -/
def vscodeSub : String := "Microsoft VS Code\\bin"

/-- The `windowsapps_path` of `main.py` line 92:
`os.path.join(localappdata, "Microsoft\\WindowsApps")` (single
backslashes). -/
def waOf (localappdata : Option String) : Option String :=
  localappdata.map (fun l => ntjoin l "Microsoft\\WindowsApps")

/-- One iteration of the classification loop of `main.py` (lines 96–116):
directories holding `ssh.exe` go to the prepend list there, and the
vscode check uses the single-backslash substring. -/
def split_step (fs : Fs) (wa : Option String) (st : SplitResult) (d : String) : SplitResult :=
  if WindowsPathBashrc.dropCond fs wa d then st
  else if infixOfB vscodeSub.toList d.toList then { st with vscode := some d }
  else if fs.isfile (ntjoin d "ssh.exe") then { st with prepend := st.prepend ++ [d] }
  else if fs.isfile (ntjoin d "python.exe") then { st with prepend := st.prepend ++ [d] }
  else if fs.isfile (ntjoin d "pip.exe") then { st with prepend := st.prepend ++ [d] }
  else { st with append := st.append ++ [d] }

/-- Embedding of `split_path` from `main.py`. -/
def split_path (fs : Fs) (localappdata : Option String) (dirs : List String) : SplitResult :=
  dirs.foldl (split_step fs (waOf localappdata)) { prepend := [], append := [] }

end MainPy

/-- Characters at which Python `str.splitlines` breaks a line. -/
def pyLineBreak (c : Char) : Bool :=
  decide (c = '\n' ∨ c = '\r' ∨ c = '\x0b' ∨ c = '\x0c' ∨ c = '\x1c' ∨ c = '\x1d'
    ∨ c = '\x1e' ∨ c = '\x85' ∨ c = '\u2028' ∨ c = '\u2029')

/-- Recursive core of Python `str.splitlines`: `\r\n` counts as a single
break, and a trailing break does not produce a final empty line. -/
def splitLinesAux : List Char → List (List Char)
  | [] => []
  | '\r' :: '\n' :: t2 => [] :: splitLinesAux t2
  | c :: t =>
    if pyLineBreak c then [] :: splitLinesAux t
    else
      match splitLinesAux t with
      | [] => [[c]]
      | g :: gs => (c :: g) :: gs

/-- Model of Python `str.splitlines()`. -/
def pySplitlines (s : String) : List String :=
  (splitLinesAux s.toList).map String.mk

/-- Captured outcome of one external process invocation
(`subprocess.run(..., capture_output=True, text=True)`). -/
structure RunResult where
  returncode : Int
  stdout : String
  stderr : String

/-- Abstract external command runner: argument vector to outcome. -/
def Runner : Type := List String → RunResult

/-- Model of a Python call-site argument that may or may not actually be a
list, as checked by `isinstance(path_list, list)`: a `nonList` carries the
`type(...).__name__` text used in the error message. -/
inductive PyArg where
  | list (xs : List String)
  | nonList (typeName : String)

/-- Path of the conversion utility as written in `__init__.py` line 104:
the raw string `r"c:\\msys64\\usr\\bin\\cygpath.exe"` contains doubled
backslashes. -/
def cygpathExe : String := "c:\\\\msys64\\\\usr\\\\bin\\\\cygpath.exe"

/-- Argument vector built by `cygpath` (lines 103–106): direction flag
`-ua` (Windows to MSYS) or `-wa`, followed by the whole batch of paths. -/
def cygCmd (win_to_msys : Bool) (path_list : List String) : List String :=
  if win_to_msys then cygpathExe :: "-ua" :: path_list
  else cygpathExe :: "-wa" :: path_list

/-- Embedding of `cygpath` from `windows_path_bashrc/__init__.py`
(lines 98–118): a non-list argument is a `TypeError` before any process
runs; otherwise the runner is invoked once on the whole batch, a non-zero
exit becomes a `RuntimeError` carrying the captured standard error, and a
zero exit returns the standard output split into lines. -/
def cygpath (runner : Runner) (arg : PyArg) (win_to_msys : Bool := true) :
    Except String (List String) :=
  match arg with
  | .nonList typeName => .error ("path_list must be list, not " ++ typeName)
  | .list path_list =>
    let result := runner (cygCmd win_to_msys path_list)
    if result.returncode ≠ 0 then .error ("cygpath failed: " ++ result.stderr)
    else .ok (pySplitlines result.stdout)

/-- Model of `str.endswith("\n")`. -/
def pyEndsWithNL (s : String) : Bool :=
  decide (s.toList.getLast? = some '\n')

/-- Newline separator the installer writes before the source line: present
exactly when the existing startup-file content is non-empty and does not
already end in a newline (`__init__.py` lines 151–152). -/
def sepFor (content : String) : String :=
  if content = "" then "" else if pyEndsWithNL content then "" else "\n"

/-- Contents of the two files touched by the installer: the generated
config file and the `.bashrc` startup file.  `none` models a file that
does not exist. -/
structure InstallState where
  config : Option String
  bashrc : Option String
  deriving DecidableEq, Repr

/-- The `source` line built by `ensure_bashrc_config` (`__init__.py`
line 143): `"source " + double_quote("$\x7bHOME\x7d/" + config_file)`. -/
def sourceLine (config_file : String) : String :=
  "source " ++ double_quote ("$\x7bHOME\x7d/" ++ config_file)

/-- Embedding of `ensure_bashrc_config` from
`windows_path_bashrc/__init__.py` (lines 129–153).  The home-directory
lookup and path construction only choose which two files are touched, so
the state abstracts them away as the `config` and `bashrc` slots.  The
config file is always overwritten; the startup file is read (missing file
means empty content) and the source line is appended only when it is not
already a substring, preceded by a newline separator exactly when the
existing content is non-empty and does not end in one. -/
def ensure_bashrc_config (config_str : String) (st : InstallState)
    (config_file : String := ".bashrc_winpath") : InstallState :=
  let st1 : InstallState := { st with config := some config_str }
  let source_line := sourceLine config_file
  let bashrc_content := (st.bashrc).getD ""
  if strContains bashrc_content source_line then st1
  else { st1 with bashrc := some (bashrc_content ++ sepFor bashrc_content ++ source_line ++ "\n") }

/-- Model of `pathlib.Path(s).parent` for the Windows paths the renderer
feeds it: strip the final path component, or answer `"."` when there is no
separator. -/
def pyParent (s : String) : String :=
  match (s.toList.reverse).dropWhile (fun c => decide (¬ (c = '\\' ∨ c = '/'))) with
  | [] => "."
  | _ :: rest => String.mk rest.reverse

/-- Shell-function block emitted for a populated vscode slot
(`__init__.py` lines 171–178), parameterised by the already-converted
parent directory. -/
def vscodeBlock (vscode_parent_msys : String) : String :=
  "function code() \x7b\n    local VSCODE_PATH=" ++ double_quote vscode_parent_msys ++
  "\n    VSCODE_DEV= \\\n    ELECTRON_RUN_AS_NODE=1 \\\n    \"$\x7bVSCODE_PATH\x7d/Code.exe\" \\\n    \"$(cygpath -w \"$\x7bVSCODE_PATH\x7d/resources/app/out/cli.js\")\" \\\n    \"$@\"\n\x7d"

/-- Lines assembled by `_build_config_string` (`__init__.py`
lines 156–184): the two unconditional PATH assignments, the optional
vscode function block, and the optional `RSYNC_RSH` export.  The external
`cygpath([str(vscode_parent)])[0]` conversion is abstracted as `conv`. -/
def buildConfigLines (conv : String → String) (prepend_dirs_msys append_dirs_msys : List String)
    (vscode_dir ssh_path : Option String) : List String :=
  let base := ["PATH=" ++ double_quote (String.intercalate ":" prepend_dirs_msys ++ ":$PATH"),
               "PATH=" ++ double_quote ("$PATH:" ++ String.intercalate ":" append_dirs_msys)]
  let withVs :=
    match vscode_dir with
    | none => base
    | some v => base ++ [vscodeBlock (conv (pyParent v))]
  match ssh_path with
  | none => withVs
  | some _ => withVs ++ ["export RSYNC_RSH=/usr/bin/ssh"]

/-- Embedding of `_build_config_string`: the joined text of
`buildConfigLines` with a final newline. -/
def _build_config_string (conv : String → String)
    (prepend_dirs_msys append_dirs_msys : List String)
    (vscode_dir ssh_path : Option String) : String :=
  String.intercalate "\n" (buildConfigLines conv prepend_dirs_msys append_dirs_msys vscode_dir ssh_path) ++ "\n"

/-- Embedding of `get_combined_path_list` from
`windows_path_bashrc/__init__.py` (lines 42–58), parameterised by the two
raw registry strings and the `os.path.expandvars` expansion (the identity
when `expandvars=False`): split each string on `;`, keep the non-empty
segments, expand, strip trailing backslashes, and return the system list
followed by the user list. -/
def get_combined_path_list (expand : String → String) (user_path system_path : String) :
    List String :=
  let user_list := (((splitSemis user_path.toList).map String.mk).filter
    (fun p => decide (p ≠ ""))).map (fun p => pyRstripBackslash (expand p))
  let system_list := (((splitSemis system_path.toList).map String.mk).filter
    (fun p => decide (p ≠ ""))).map (fun p => pyRstripBackslash (expand p))
  system_list ++ user_list

/-- Combined path list as the specification words it ("splits each string
on `;`, discards empty segments, optionally expands, and strips trailing
path separators; all system entries followed by all user entries"),
written independently for comparison with the source embedding. -/
def specCombinedPathList (expand : String → String) (user_path system_path : String) :
    List String :=
  let perSide := fun (raw : String) =>
    (((splitSemis raw.toList).map String.mk).filter (fun p => decide (p ≠ ""))).map
      (fun p => pyRstripBackslash (expand p))
  perSide system_path ++ perSide user_path

/-- Backquote character, used by the shell parser model. -/
def backquoteChar : Char := Char.ofNat 96

/-- Does this character start a parameter or command expansion after `$`
inside double quotes (a name character, `\x7b`, or `(`)? -/
def dollarExpandStart (c : Char) : Bool :=
  c.isAlpha || c.isDigit || decide (c = '_') || decide (c = '\x7b') || decide (c = '(')

/-- POSIX-shell reading of the body of a double-quoted token (the part
after the opening quote): backslash escapes `"`, `\`, `$` and backquote
and is otherwise kept literally; an unescaped `$` starting an expansion or
any backquote means the token is not a fixed literal; the closing quote
must end the input.  Returns the literal character sequence, or `none`
when the text is not one literal token. -/
def dqParse : List Char → Option (List Char)
  | [] => none
  | c :: rest =>
    if c = '"' then if rest.isEmpty then some [] else none
    else if c = '\\' then
      match rest with
      | [] => none
      | e :: rest2 =>
        if e = '"' ∨ e = '\\' ∨ e = '$' ∨ e = backquoteChar then
          (dqParse rest2).map (fun t => e :: t)
        else
          (dqParse rest2).map (fun t => '\\' :: e :: t)
    else if c = '$' then
      match rest with
      | [] => none
      | e :: _ =>
        if dollarExpandStart e then none
        else (dqParse rest).map (fun t => '$' :: t)
    else if c = backquoteChar then none
    else (dqParse rest).map (fun t => c :: t)

/-- Shell reading of a whole rendered value: an opening double quote, a
double-quoted body, and nothing after the closing quote; `some s` exactly
when a shell would parse the text as the single literal token `s`. -/
def shellDQLiteral (rendered : String) : Option String :=
  match rendered.toList with
  | '"' :: rest => (dqParse rest).map String.mk
  | _ => none

/-! ## Lemmas about the classifier -/

namespace WindowsPathBashrc

theorem split_step_eq (fs : Fs) (wa : Option String) (st : SplitResult) (d : String) :
    split_step fs wa st d =
      match classify fs wa d with
      | .dropped => st
      | .vscode => { st with vscode := some d }
      | .ssh => { st with ssh := some d }
      | .prepend => { st with prepend := st.prepend ++ [d] }
      | .append => { st with append := st.append ++ [d] } := rfl

theorem split_foldl_char (fs : Fs) (wa : Option String) (dirs : List String)
    (st : SplitResult) :
    dirs.foldl (split_step fs wa) st =
      { prepend := st.prepend ++ dirs.filter (fun d => decide (classify fs wa d = Cat.prepend)),
        append := st.append ++ dirs.filter (fun d => decide (classify fs wa d = Cat.append)),
        vscode := lastMatch (dirs.filter (fun d => decide (classify fs wa d = Cat.vscode))) st.vscode,
        ssh := lastMatch (dirs.filter (fun d => decide (classify fs wa d = Cat.ssh))) st.ssh } := by
  induction dirs generalizing st with
  | nil => simp [lastMatch]
  | cons d rest ih =>
    simp only [List.foldl_cons, List.filter_cons]
    rw [ih]
    rcases hc : classify fs wa d <;>
      simp [split_step, hc, lastMatch, List.append_assoc]

theorem split_path_fields (fs : Fs) (la : Option String) (dirs : List String) :
    split_path fs la dirs =
      { prepend := dirs.filter (fun d => decide (classify fs (waOf la) d = Cat.prepend)),
        append := dirs.filter (fun d => decide (classify fs (waOf la) d = Cat.append)),
        vscode := lastMatch (dirs.filter (fun d => decide (classify fs (waOf la) d = Cat.vscode))) none,
        ssh := lastMatch (dirs.filter (fun d => decide (classify fs (waOf la) d = Cat.ssh))) none } := by
  unfold split_path
  rw [split_foldl_char]
  simp

theorem lastMatch_isSome (l : List String) (x : String) :
    (lastMatch l (some x)).isSome = true := by
  induction l generalizing x with
  | nil => rfl
  | cons y ys ih => exact ih y

theorem catCount_partition (fs : Fs) (la : Option String) (dirs : List String) :
    catCount fs la .dropped dirs + catCount fs la .vscode dirs + catCount fs la .ssh dirs +
      catCount fs la .prepend dirs + catCount fs la .append dirs = dirs.length := by
  induction dirs with
  | nil => rfl
  | cons d rest ih =>
    unfold catCount at *
    simp only [List.filter_cons, List.length_cons]
    rcases hc : classify fs (waOf la) d <;> simp [hc] <;> omega

theorem optSize_lastMatch_of_le_one (l : List String) (h : l.length ≤ 1) :
    optSize (lastMatch l none) = l.length := by
  match l with
  | [] => rfl
  | [x] => rfl
  | x :: y :: rest => simp at h

end WindowsPathBashrc

/-! ## Claim C1: bucket sizes of the classifier -/

/-- Claim C1, as stated, is false: the vscode and ssh slots are
single-valued with "last assignment wins", so when two input directories
both match the editor substring only one survives and the bucket sizes sum
to one less than the input length (no entry was dropped).  Concrete
refutation with two vscode-matching directories on an all-negative
filesystem. -/
theorem c1_counterexample :
    ¬ ((WindowsPathBashrc.split_path fsEmpty none
          ["aMicrosoft VS Code\\\\bin", "bMicrosoft VS Code\\\\bin"]).prepend.length +
        (WindowsPathBashrc.split_path fsEmpty none
          ["aMicrosoft VS Code\\\\bin", "bMicrosoft VS Code\\\\bin"]).append.length +
        WindowsPathBashrc.optSize (WindowsPathBashrc.split_path fsEmpty none
          ["aMicrosoft VS Code\\\\bin", "bMicrosoft VS Code\\\\bin"]).vscode +
        WindowsPathBashrc.optSize (WindowsPathBashrc.split_path fsEmpty none
          ["aMicrosoft VS Code\\\\bin", "bMicrosoft VS Code\\\\bin"]).ssh =
        (["aMicrosoft VS Code\\\\bin", "bMicrosoft VS Code\\\\bin"] : List String).length -
          WindowsPathBashrc.droppedCount fsEmpty none
            ["aMicrosoft VS Code\\\\bin", "bMicrosoft VS Code\\\\bin"]) := by
  decide

/-- Claim C1 (amended): when at most one input directory matches each
single-valued slot (vscode, ssh), every input directory lands in exactly
one bucket or is dropped, so the prepend, append, vscode and ssh bucket
sizes plus the dropped count sum to the input length. -/
theorem c1_bucket_sizes_amended (fs : Fs) (la : Option String) (dirs : List String)
    (hv : WindowsPathBashrc.catCount fs la .vscode dirs ≤ 1)
    (hs : WindowsPathBashrc.catCount fs la .ssh dirs ≤ 1) :
    (WindowsPathBashrc.split_path fs la dirs).prepend.length +
      (WindowsPathBashrc.split_path fs la dirs).append.length +
      WindowsPathBashrc.optSize (WindowsPathBashrc.split_path fs la dirs).vscode +
      WindowsPathBashrc.optSize (WindowsPathBashrc.split_path fs la dirs).ssh +
      WindowsPathBashrc.droppedCount fs la dirs = dirs.length := by
  have hpart := WindowsPathBashrc.catCount_partition fs la dirs
  rw [WindowsPathBashrc.split_path_fields]
  simp only
  rw [WindowsPathBashrc.optSize_lastMatch_of_le_one _ hv,
    WindowsPathBashrc.optSize_lastMatch_of_le_one _ hs]
  unfold WindowsPathBashrc.catCount WindowsPathBashrc.droppedCount
    WindowsPathBashrc.catCount at *
  omega

/-- Witness for the amended C1 theorem at a concrete input exercising all
five branches (one dropped WindowsApps directory, one prepend, one append,
one vscode, one ssh). -/
theorem c1_bucket_sizes_witness :
    (WindowsPathBashrc.catCount c1Fs (some "C:\\Users\\u\\AppData\\Local") .vscode c1Dirs ≤ 1 ∧
      WindowsPathBashrc.catCount c1Fs (some "C:\\Users\\u\\AppData\\Local") .ssh c1Dirs ≤ 1) ∧
    (WindowsPathBashrc.split_path c1Fs (some "C:\\Users\\u\\AppData\\Local") c1Dirs).prepend.length +
      (WindowsPathBashrc.split_path c1Fs (some "C:\\Users\\u\\AppData\\Local") c1Dirs).append.length +
      WindowsPathBashrc.optSize (WindowsPathBashrc.split_path c1Fs (some "C:\\Users\\u\\AppData\\Local") c1Dirs).vscode +
      WindowsPathBashrc.optSize (WindowsPathBashrc.split_path c1Fs (some "C:\\Users\\u\\AppData\\Local") c1Dirs).ssh +
      WindowsPathBashrc.droppedCount c1Fs (some "C:\\Users\\u\\AppData\\Local") c1Dirs = c1Dirs.length :=
  ⟨⟨by decide, by decide⟩,
    c1_bucket_sizes_amended c1Fs (some "C:\\Users\\u\\AppData\\Local") c1Dirs
      (by decide) (by decide)⟩

/-! ## Claim C5: ssh slot -/

/-- Claim C5: a directory of the input that is not dropped, does not match
the editor substring, and holds `ssh.exe` is recorded into the
single-valued ssh slot (the slot ends up populated, by some such
directory) and appears in neither the prepend nor the append list. -/
theorem c5_ssh_slot (fs : Fs) (la : Option String) (dirs : List String) (d : String)
    (hmem : d ∈ dirs)
    (hdrop : WindowsPathBashrc.dropCond fs (WindowsPathBashrc.waOf la) d = false)
    (hvs : infixOfB WindowsPathBashrc.vscodeSub.toList d.toList = false)
    (hssh : fs.isfile (ntjoin d "ssh.exe") = true) :
    (WindowsPathBashrc.split_path fs la dirs).ssh.isSome = true ∧
      d ∉ (WindowsPathBashrc.split_path fs la dirs).prepend ∧
      d ∉ (WindowsPathBashrc.split_path fs la dirs).append := by
  have hc : WindowsPathBashrc.classify fs (WindowsPathBashrc.waOf la) d = .ssh := by
    unfold WindowsPathBashrc.classify
    rw [hdrop, hvs, hssh]
    simp
  rw [WindowsPathBashrc.split_path_fields]
  refine ⟨?_, ?_, ?_⟩
  · have hfil : d ∈ dirs.filter
        (fun d => decide (WindowsPathBashrc.classify fs (WindowsPathBashrc.waOf la) d = .ssh)) := by
      rw [List.mem_filter]
      exact ⟨hmem, by rw [hc]; rfl⟩
    rcases hl : dirs.filter
        (fun d => decide (WindowsPathBashrc.classify fs (WindowsPathBashrc.waOf la) d = .ssh)) with
      _ | ⟨x, xs⟩
    · rw [hl] at hfil; simp at hfil
    · exact WindowsPathBashrc.lastMatch_isSome xs x
  · intro hmemP
    simp only [List.mem_filter] at hmemP
    rw [hc] at hmemP
    simp at hmemP
  · intro hmemA
    simp only [List.mem_filter] at hmemA
    rw [hc] at hmemA
    simp at hmemA

/-- Witness for claim C5 at a concrete input: a lone directory holding
`ssh.exe` lands in the ssh slot and in neither list. -/
theorem c5_ssh_slot_witness :
    (("C:\\s" : String) ∈ (["C:\\other", "C:\\s"] : List String) ∧
      WindowsPathBashrc.dropCond c1Fs (WindowsPathBashrc.waOf none) "C:\\s" = false ∧
      infixOfB WindowsPathBashrc.vscodeSub.toList ("C:\\s" : String).toList = false ∧
      c1Fs.isfile (ntjoin "C:\\s" "ssh.exe") = true) ∧
    ((WindowsPathBashrc.split_path c1Fs none ["C:\\other", "C:\\s"]).ssh.isSome = true ∧
      ("C:\\s" : String) ∉ (WindowsPathBashrc.split_path c1Fs none ["C:\\other", "C:\\s"]).prepend ∧
      ("C:\\s" : String) ∉ (WindowsPathBashrc.split_path c1Fs none ["C:\\other", "C:\\s"]).append) :=
  ⟨⟨by decide, by decide, by decide, by decide⟩,
    c5_ssh_slot c1Fs none ["C:\\other", "C:\\s"] "C:\\s"
      (by decide) (by decide) (by decide) (by decide)⟩

/-! ## Claim C7: the editor substring check -/

/-- Claim C7 is right about the intended behaviour but the package code
contradicts it: `__init__.py` line 77 tests the raw string
`r"Microsoft VS Code\\bin"`, whose value holds two consecutive
backslashes, so a real Windows PATH entry (single backslashes) never
matches and falls through to the append list, while the legacy `main.py`
(line 100) tests the single-backslash substring and records the directory
in the vscode slot.  Evaluation of both embeddings at the failing input. -/
theorem c7_vscode_substring_bug :
    (WindowsPathBashrc.split_path fsEmpty none
        ["C:\\Users\\u\\AppData\\Local\\Programs\\Microsoft VS Code\\bin"]).vscode = none ∧
    (WindowsPathBashrc.split_path fsEmpty none
        ["C:\\Users\\u\\AppData\\Local\\Programs\\Microsoft VS Code\\bin"]).append =
      ["C:\\Users\\u\\AppData\\Local\\Programs\\Microsoft VS Code\\bin"] ∧
    (MainPy.split_path fsEmpty none
        ["C:\\Users\\u\\AppData\\Local\\Programs\\Microsoft VS Code\\bin"]).vscode =
      some "C:\\Users\\u\\AppData\\Local\\Programs\\Microsoft VS Code\\bin" := by
  refine ⟨by decide, by decide, by decide⟩

/-! ## Lemmas about substring occurrence counting -/

theorem isPrefixOf_true_iff (N H : List Char) : N.isPrefixOf H = true ↔ N <+: H :=
  List.isPrefixOf_iff_prefix

theorem occ_nil (N : List Char) (hne : N ≠ []) : occCount N [] = 0 := by
  rw [occCount, if_neg]
  intro hp
  exact hne (List.prefix_nil.mp ((isPrefixOf_true_iff N []).mp hp))

theorem occ_zero_iff (N : List Char) (hne : N ≠ []) (H : List Char) :
    occCount N H = 0 ↔ infixOfB N H = false := by
  induction H with
  | nil =>
    rw [occ_nil N hne, infixOfB]
    simp [List.isEmpty_iff, hne]
  | cons c t ih =>
    rw [occCount, infixOfB]
    by_cases hp : N.isPrefixOf (c :: t) = true
    · simp [hp]
    · simp only [Bool.not_eq_true] at hp
      simp [hp, ih]

theorem occ_zero_of_short (N H : List Char) (h : H.length < N.length) : occCount N H = 0 := by
  induction H with
  | nil => exact occ_nil N (by intro he; subst he; simp at h)
  | cons c t ih =>
    rw [occCount, if_neg, ih (by simp at h ⊢; omega)]
    intro hp
    have := ((isPrefixOf_true_iff N (c :: t)).mp hp).length_le
    omega

theorem occ_self (N : List Char) (hne : N ≠ []) : occCount N N = 1 := by
  obtain ⟨n, N', rfl⟩ := List.exists_cons_of_ne_nil hne
  rw [occCount, if_pos ((isPrefixOf_true_iff _ _).mpr (List.prefix_refl _)),
    occ_zero_of_short _ _ (by simp)]

theorem prefix_snoc_newline_iff (N H : List Char) (hnl : '\n' ∉ N) :
    N <+: H ++ ['\n'] ↔ N <+: H := by
  constructor
  · intro hp
    have hlen := hp.length_le
    simp only [List.length_append, List.length_cons, List.length_nil] at hlen
    by_cases hle : N.length ≤ H.length
    · rw [List.prefix_iff_eq_take] at hp ⊢
      rwa [List.take_append_of_le_length hle] at hp
    · have hlen2 : N.length = H.length + 1 := by omega
      have := hp.eq_of_length (by simp [hlen2])
      subst this
      exact absurd (by simp : '\n' ∈ H ++ ['\n']) hnl
  · intro hp
    exact hp.trans (List.prefix_append H ['\n'])

theorem occ_snoc_newline (N H : List Char) (hne : N ≠ []) (hnl : '\n' ∉ N) :
    occCount N (H ++ ['\n']) = occCount N H := by
  induction H with
  | nil =>
    have h1 : occCount N ['\n'] = (if N.isPrefixOf ['\n'] = true then 1 else 0) + occCount N [] :=
      rfl
    rw [List.nil_append, h1, occ_nil N hne, if_neg]
    intro hp
    have hp' := (isPrefixOf_true_iff _ _).mp hp
    rw [show ['\n'] = ([] : List Char) ++ ['\n'] from rfl,
      prefix_snoc_newline_iff N [] hnl] at hp'
    exact hne (List.prefix_nil.mp hp')
  | cons c t ih =>
    rw [List.cons_append, occCount, ih]
    conv_rhs => rw [occCount]
    congr 1
    by_cases hp : N <+: c :: t
    · rw [if_pos, if_pos ((isPrefixOf_true_iff _ _).mpr hp)]
      exact (isPrefixOf_true_iff _ _).mpr
        ((prefix_snoc_newline_iff N (c :: t) hnl).mpr hp)
    · rw [if_neg, if_neg]
      · intro hb; exact hp ((isPrefixOf_true_iff _ _).mp hb)
      · intro hb
        exact hp ((prefix_snoc_newline_iff N (c :: t) hnl).mp
          ((isPrefixOf_true_iff _ _).mp hb))

theorem occ_append_self (N : List Char) (hne : N ≠ []) (hnl : '\n' ∉ N) :
    ∀ A : List Char, A = [] ∨ A.getLast? = some '\n' → occCount N A = 0 →
      occCount N (A ++ N) = 1 := by
  intro A
  induction A with
  | nil => intro _ _; simpa using occ_self N hne
  | cons a t ih =>
    intro hlast h0
    rw [occCount] at h0
    have hnp : ¬ (N <+: a :: t) := by
      intro hp
      rw [if_pos ((isPrefixOf_true_iff _ _).mpr hp)] at h0
      omega
    have h0t : occCount N t = 0 := by
      by_cases hp : N.isPrefixOf (a :: t) = true
      · exact absurd ((isPrefixOf_true_iff _ _).mp hp) hnp
      · simp only [Bool.not_eq_true] at hp
        rw [hp] at h0
        simpa using h0
    have hlastS : (a :: t).getLast? = some '\n' := by
      rcases hlast with h | h
      · exact absurd h (by simp)
      · exact h
    have hlast' : t = [] ∨ t.getLast? = some '\n' := by
      match t with
      | [] => exact Or.inl rfl
      | b :: t' =>
        right
        rw [List.getLast?_cons_cons] at hlastS
        exact hlastS
    rw [List.cons_append, occCount, ih hlast' h0t, if_neg]
    intro hb
    have hp : N <+: (a :: t) ++ N := by
      rw [List.cons_append] at *
      exact (isPrefixOf_true_iff _ _).mp hb
    by_cases hle : N.length ≤ (a :: t).length
    · apply hnp
      rw [List.prefix_iff_eq_take] at hp ⊢
      rwa [List.take_append_of_le_length hle] at hp
    · have hSpre : (a :: t) <+: N := by
        rw [List.prefix_iff_eq_take] at hp
        rw [List.prefix_iff_eq_take]
        calc a :: t = List.take (a :: t).length ((a :: t) ++ N) := (List.take_left _ _).symm
          _ = List.take (a :: t).length (List.take N.length ((a :: t) ++ N)) := by
              rw [List.take_take, min_eq_left (by simp at hle ⊢; omega)]
          _ = List.take (a :: t).length N := by rw [← hp]
      have hmem : '\n' ∈ N := hSpre.subset (List.mem_of_mem_getLast? hlastS)
      exact hnl hmem

theorem infix_mid (N A B : List Char) (hne : N ≠ []) :
    infixOfB N (A ++ (N ++ B)) = true := by
  induction A with
  | nil =>
    obtain ⟨n, N', rfl⟩ := List.exists_cons_of_ne_nil hne
    rw [List.nil_append, List.cons_append, infixOfB, ← List.cons_append]
    rw [(isPrefixOf_true_iff _ _).mpr (List.prefix_append _ B)]
    simp
  | cons a t ih =>
    rw [List.cons_append, infixOfB, ih]
    simp

/-! ## Claim C2: the idempotent installer -/

theorem sepFor_cases (content : String) :
    (content = "" ∧ sepFor content = "") ∨
    (content.toList.getLast? = some '\n' ∧ sepFor content = "") ∨ sepFor content = "\n" := by
  unfold sepFor
  by_cases h1 : content = ""
  · exact Or.inl ⟨h1, by rw [if_pos h1]⟩
  · by_cases h2 : pyEndsWithNL content = true
    · exact Or.inr (Or.inl ⟨of_decide_eq_true h2, by rw [if_neg h1, if_pos h2]⟩)
    · exact Or.inr (Or.inr (by rw [if_neg h1, if_neg h2]))

theorem ensure_core (N content : String) (hne : N.toList ≠ []) (hnl : '\n' ∉ N.toList)
    (h0 : occCount N.toList content.toList = 0) :
    occCountS N (content ++ sepFor content ++ N ++ "\n") = 1 ∧
      strContains (content ++ sepFor content ++ N ++ "\n") N = true := by
  have hlist : (content ++ sepFor content ++ N ++ "\n").toList =
      ((content.toList ++ (sepFor content).toList) ++ N.toList) ++ ['\n'] := rfl
  constructor
  · rw [occCountS, hlist, occ_snoc_newline _ _ hne hnl]
    apply occ_append_self N.toList hne hnl
    · rcases sepFor_cases content with ⟨h1, h2⟩ | ⟨h1, h2⟩ | h1
      · left
        rw [h2, h1]
        rfl
      · right
        rw [h2]
        simpa using h1
      · right
        rw [h1]
        rw [show ("\n" : String).toList = ['\n'] from rfl, List.getLast?_concat]
    · rcases sepFor_cases content with ⟨h1, h2⟩ | ⟨h1, h2⟩ | h1
      · rw [h2, h1]
        exact occ_nil _ hne
      · rw [h2]
        simpa using h0
      · rw [h1]
        rw [show ("\n" : String).toList = ['\n'] from rfl, occ_snoc_newline _ _ hne hnl]
        exact h0
  · rw [strContains, hlist, List.append_assoc (content.toList ++ (sepFor content).toList)]
    exact infix_mid _ _ _ hne

/-- Claim C2: starting from a startup file that does not yet contain the
source line, running the installer twice with the same rendered
configuration leaves exactly one occurrence of the source line in the
startup file, and the config file holds exactly the rendered text after
each run. -/
theorem c2_installer_idempotent (config_str : String) (st : InstallState)
    (h : strContains ((st.bashrc).getD "") (sourceLine ".bashrc_winpath") = false) :
    (ensure_bashrc_config config_str st).config = some config_str ∧
    (ensure_bashrc_config config_str (ensure_bashrc_config config_str st)).config = some config_str ∧
    occCountS (sourceLine ".bashrc_winpath")
      (((ensure_bashrc_config config_str (ensure_bashrc_config config_str st)).bashrc).getD "") = 1 := by
  have hne : (sourceLine ".bashrc_winpath").toList ≠ [] := by decide
  have hnl : '\n' ∉ (sourceLine ".bashrc_winpath").toList := by decide
  obtain ⟨cfg₀, b₀⟩ := st
  have h0 : occCount (sourceLine ".bashrc_winpath").toList ((b₀.getD "")).toList = 0 :=
    (occ_zero_iff _ hne _).mpr h
  obtain ⟨hocc, hcont⟩ := ensure_core (sourceLine ".bashrc_winpath") (b₀.getD "") hne hnl h0
  have hrun1 : ensure_bashrc_config config_str ⟨cfg₀, b₀⟩ =
      { config := some config_str,
        bashrc := some ((b₀.getD "") ++ sepFor (b₀.getD "") ++
          sourceLine ".bashrc_winpath" ++ "\n") } := by
    simp only [ensure_bashrc_config, h]
    simp
  have hrun2 : ensure_bashrc_config config_str
      ({ config := some config_str,
         bashrc := some ((b₀.getD "") ++ sepFor (b₀.getD "") ++
           sourceLine ".bashrc_winpath" ++ "\n") } : InstallState) =
      { config := some config_str,
        bashrc := some ((b₀.getD "") ++ sepFor (b₀.getD "") ++
          sourceLine ".bashrc_winpath" ++ "\n") } := by
    simp only [ensure_bashrc_config, Option.getD_some, hcont]
    simp
  rw [hrun1, hrun2]
  exact ⟨rfl, rfl, hocc⟩

/-- Witness for claim C2: a fresh state (neither file exists) run twice
with a concrete configuration text. -/
theorem c2_installer_idempotent_witness :
    (strContains (((⟨none, none⟩ : InstallState).bashrc).getD "")
        (sourceLine ".bashrc_winpath") = false) ∧
    ((ensure_bashrc_config "PATH=\":$PATH\"\n" ⟨none, none⟩).config = some "PATH=\":$PATH\"\n" ∧
      (ensure_bashrc_config "PATH=\":$PATH\"\n"
          (ensure_bashrc_config "PATH=\":$PATH\"\n" ⟨none, none⟩)).config =
        some "PATH=\":$PATH\"\n" ∧
      occCountS (sourceLine ".bashrc_winpath")
        (((ensure_bashrc_config "PATH=\":$PATH\"\n"
            (ensure_bashrc_config "PATH=\":$PATH\"\n" ⟨none, none⟩)).bashrc).getD "") = 1) :=
  ⟨by decide, c2_installer_idempotent "PATH=\":$PATH\"\n" ⟨none, none⟩ (by decide)⟩

/-! ## Claim C3: empty input to the converter -/

/-- Claim C3 describes the guard the specification demands, but the code
has no such guard: `cygpath` builds the argument vector and invokes the
utility even for the empty list, and its result is whatever the process
run produces — an error when the utility exits non-zero, and the utility's
output lines (not necessarily `[]`) when it exits zero.  Evaluation of the
embedding at the failing input `[]` under two concrete runners. -/
theorem c3_cygpath_empty_still_invokes :
    cygpath (fun _ => ⟨1, "", "boom"⟩) (.list []) true = .error "cygpath failed: boom" ∧
    cygpath (fun _ => ⟨0, "/x\n", ""⟩) (.list []) true = .ok ["/x"] ∧
    (["/x"] : List String) ≠ [] := by
  refine ⟨rfl, rfl, by decide⟩

/-! ## Claim C9: error contract of the converter -/

/-- Claim C9: the converter fails exactly on a non-list argument (a
precondition failure independent of the runner, hence raised before any
invocation) or on a non-zero exit status (the error carrying the captured
diagnostic output); with a list argument and zero exit status it returns
the standard output split into lines. -/
theorem c9_cygpath_error_contract (runner : Runner) (win : Bool) :
    (∀ tn : String, ∀ r2 : Runner,
        cygpath runner (.nonList tn) win = .error ("path_list must be list, not " ++ tn) ∧
        cygpath runner (.nonList tn) win = cygpath r2 (.nonList tn) win) ∧
    (∀ xs : List String,
        ((runner (cygCmd win xs)).returncode ≠ 0 →
          cygpath runner (.list xs) win =
            .error ("cygpath failed: " ++ (runner (cygCmd win xs)).stderr)) ∧
        ((runner (cygCmd win xs)).returncode = 0 →
          cygpath runner (.list xs) win = .ok (pySplitlines (runner (cygCmd win xs)).stdout))) := by
  refine ⟨fun tn r2 => ⟨rfl, rfl⟩, fun xs => ⟨?_, ?_⟩⟩
  · intro hrc
    simp [cygpath, hrc]
  · intro hrc
    simp [cygpath, hrc]

/-- Witness for claim C9: a concrete failing runner on a one-element
batch. -/
theorem c9_cygpath_error_contract_witness :
    (((fun _ => ⟨1, "", "E"⟩ : Runner) (cygCmd true ["a"])).returncode ≠ 0) ∧
      cygpath (fun _ => ⟨1, "", "E"⟩ : Runner) (.list ["a"]) true =
        .error ("cygpath failed: " ++
          ((fun _ => ⟨1, "", "E"⟩ : Runner) (cygCmd true ["a"])).stderr) :=
  ⟨by decide,
    ((c9_cygpath_error_contract (fun _ => ⟨1, "", "E"⟩) true).2 ["a"]).1 (by decide)⟩

/-! ## Claim C4: quoting and shell literalness -/

theorem dqParse_cons_ord (c : Char) (rest : List Char)
    (h1 : ¬ c = '"') (h2 : ¬ c = '\\') (h3 : ¬ c = '$') (h4 : ¬ c = backquoteChar) :
    dqParse (c :: rest) = (dqParse rest).map (fun t => c :: t) := by
  rw [dqParse.eq_def]
  simp only []
  rw [if_neg h1, if_neg h2, if_neg h3, if_neg h4]

theorem dqParse_escape (e : Char) (rest2 : List Char)
    (he : e = '"' ∨ e = '\\' ∨ e = '$' ∨ e = backquoteChar) :
    dqParse ('\\' :: e :: rest2) = (dqParse rest2).map (fun t => e :: t) := by
  rw [dqParse.eq_def]
  simp only [if_true]
  rw [if_pos he, if_neg (by decide)]

theorem dqParse_escaped_key (cs : List Char)
    (hd : '$' ∉ cs) (hb : backquoteChar ∉ cs) (hctrl : ∀ c ∈ cs, 32 ≤ c.toNat) :
    dqParse ((cs.map jsonEscapeChar).flatten ++ ['"']) = some cs := by
  induction cs with
  | nil => rfl
  | cons c cs' ih =>
    have hd' : '$' ∉ cs' := fun h => hd (List.mem_cons_of_mem _ h)
    have hb' : backquoteChar ∉ cs' := fun h => hb (List.mem_cons_of_mem _ h)
    have hctrl' : ∀ x ∈ cs', 32 ≤ x.toNat := fun x hx => hctrl x (List.mem_cons_of_mem _ hx)
    have hrec := ih hd' hb' hctrl'
    have hcd : ¬ c = '$' := fun h => hd (h ▸ List.mem_cons_self c cs')
    have hcb : ¬ c = backquoteChar := fun h => hb (h ▸ List.mem_cons_self c cs')
    have hcc : 32 ≤ c.toNat := hctrl c (List.mem_cons_self c cs')
    simp only [List.map_cons, List.flatten_cons, List.append_assoc]
    by_cases h1 : c = '\\'
    · subst h1
      rw [show jsonEscapeChar '\\' = ['\\', '\\'] from rfl]
      rw [show ((['\\', '\\'] : List Char) ++ ((cs'.map jsonEscapeChar).flatten ++ ['"'])) =
        '\\' :: '\\' :: ((cs'.map jsonEscapeChar).flatten ++ ['"']) from rfl]
      rw [dqParse_escape _ _ (Or.inr (Or.inl rfl)), hrec]
      rfl
    · by_cases h2 : c = '"'
      · subst h2
        rw [show jsonEscapeChar '"' = ['\\', '"'] from rfl]
        rw [show ((['\\', '"'] : List Char) ++ ((cs'.map jsonEscapeChar).flatten ++ ['"'])) =
          '\\' :: '"' :: ((cs'.map jsonEscapeChar).flatten ++ ['"']) from rfl]
        rw [dqParse_escape _ _ (Or.inl rfl), hrec]
        rfl
      · have hesc : jsonEscapeChar c = [c] := by
          rw [jsonEscapeChar, if_neg h1, if_neg h2, if_neg (by omega)]
        rw [hesc]
        rw [show (([c] : List Char) ++ ((cs'.map jsonEscapeChar).flatten ++ ['"'])) =
          c :: ((cs'.map jsonEscapeChar).flatten ++ ['"']) from rfl]
        rw [dqParse_cons_ord c _ h2 h1 hcd hcb, hrec]
        rfl

/-- Claim C4, as stated, is false: the quoting routine is JSON string
quoting, which escapes backslashes and double quotes but leaves a dollar
sign bare, so a shell substitutes rather than reading the original string
literally.  Concrete refutation: the string `$P` (which contains a dollar
sign) renders to `"$P"`, which a shell does not parse as the literal
token `$P`. -/
theorem c4_counterexample :
    ('$' ∈ ("$P" : String).toList) ∧ shellDQLiteral (double_quote "$P") ≠ some "$P" := by
  refine ⟨by decide, by decide⟩

/-- Claim C4 (amended): any path string containing a double quote or a
backslash — but no dollar sign, no backquote, and no control character —
renders through the quoting routine to text a shell parses as one literal
token equal to the original; a dollar sign is deliberately left unescaped
(the rendered lines rely on `$PATH` expansion), so strings containing one
are not read back literally. -/
theorem c4_quoting_amended (s : String)
    (hcontains : '"' ∈ s.toList ∨ '\\' ∈ s.toList)
    (hd : '$' ∉ s.toList) (hb : backquoteChar ∉ s.toList)
    (hctrl : ∀ c ∈ s.toList, 32 ≤ c.toNat) :
    shellDQLiteral (double_quote s) = some s := by
  have hred : shellDQLiteral (double_quote s) =
      (dqParse ((s.toList.map jsonEscapeChar).flatten ++ ['"'])).map String.mk := rfl
  rw [hred, dqParse_escaped_key s.toList hd hb hctrl]
  rfl

/-- Witness for the amended C4 theorem: a backslash-containing Windows
path fragment round-trips through the renderer's quoting. -/
theorem c4_quoting_amended_witness :
    (('"' ∈ ("C:\\Py\\x \"y\"" : String).toList ∨ '\\' ∈ ("C:\\Py\\x \"y\"" : String).toList) ∧
      '$' ∉ ("C:\\Py\\x \"y\"" : String).toList ∧
      backquoteChar ∉ ("C:\\Py\\x \"y\"" : String).toList ∧
      (∀ c ∈ ("C:\\Py\\x \"y\"" : String).toList, 32 ≤ c.toNat)) ∧
    shellDQLiteral (double_quote "C:\\Py\\x \"y\"") = some "C:\\Py\\x \"y\"" :=
  ⟨⟨by decide, by decide, by decide, by decide⟩,
    c4_quoting_amended "C:\\Py\\x \"y\"" (by decide) (by decide) (by decide) (by decide)⟩

/-! ## Claim C8: the combined path reader -/

theorem head_dropWhile_not (p : Char → Bool) (l : List Char) (a : Char)
    (h : (l.dropWhile p).head? = some a) : p a = false := by
  induction l with
  | nil => simp [List.dropWhile] at h
  | cons c t ih =>
    rw [List.dropWhile] at h
    by_cases hc : p c = true
    · rw [hc] at h
      simpa using ih h
    · simp only [Bool.not_eq_true] at hc
      rw [hc] at h
      simp only [List.head?_cons, Option.some.injEq] at h
      rwa [h] at hc

theorem pyRstrip_no_trailing (s : String) :
    (pyRstripBackslash s).toList.getLast? ≠ some '\\' := by
  rw [show (pyRstripBackslash s).toList =
      (s.toList.reverse.dropWhile (fun c => decide (c = '\\'))).reverse from rfl]
  rw [List.getLast?_reverse]
  intro h
  have := head_dropWhile_not _ _ _ h
  simp at this

/-- Claim C8: the combined path reader returns exactly the list described
by the specification — the system entries followed by the user entries,
each string split on `;` with empty segments discarded, each kept segment
expanded and stripped of trailing path separators — and, in consequence,
no returned entry ends in a backslash. -/
theorem c8_combined_path_reader (expand : String → String) (user_path system_path : String) :
    get_combined_path_list expand user_path system_path =
      specCombinedPathList expand user_path system_path ∧
    ∀ e ∈ get_combined_path_list expand user_path system_path,
      e.toList.getLast? ≠ some '\\' := by
  constructor
  · rfl
  · intro e he
    simp only [get_combined_path_list, List.mem_append, List.mem_map] at he
    rcases he with ⟨p, _, rfl⟩ | ⟨p, _, rfl⟩ <;> exact pyRstrip_no_trailing _

/-- Witness for claim C8: concrete registry strings with an empty segment,
a trailing backslash, and identity expansion; system entries come first
and the stripped entry is returned without its trailing backslash. -/
theorem c8_combined_path_reader_witness :
    (get_combined_path_list (fun s => s) "C:\\U;;C:\\V\\" "D:\\S\\" =
        specCombinedPathList (fun s => s) "C:\\U;;C:\\V\\" "D:\\S\\" ∧
      get_combined_path_list (fun s => s) "C:\\U;;C:\\V\\" "D:\\S\\" =
        ["D:\\S", "C:\\U", "C:\\V"]) ∧
    (("C:\\V" : String) ∈ get_combined_path_list (fun s => s) "C:\\U;;C:\\V\\" "D:\\S\\" ∧
      ("C:\\V" : String).toList.getLast? ≠ some '\\') :=
  ⟨⟨(c8_combined_path_reader (fun s => s) "C:\\U;;C:\\V\\" "D:\\S\\").1, by decide⟩,
    ⟨by decide,
      (c8_combined_path_reader (fun s => s) "C:\\U;;C:\\V\\" "D:\\S\\").2 "C:\\V" (by decide)⟩⟩

/-! ## Claims C6 and C10: the renderer -/

theorem path_line_ne_export (x : String) :
    ("PATH=" ++ x) ≠ "export RSYNC_RSH=/usr/bin/ssh" := by
  intro h
  have h2 : ("PATH=" ++ x).toList.head? =
      ("export RSYNC_RSH=/usr/bin/ssh" : String).toList.head? := by rw [h]
  rw [show (("PATH=" ++ x).toList.head?) = some 'P' from rfl] at h2
  simp at h2

theorem vscode_block_ne_export (v : String) :
    vscodeBlock v ≠ "export RSYNC_RSH=/usr/bin/ssh" := by
  intro h
  have h2 : (vscodeBlock v).toList.head? =
      ("export RSYNC_RSH=/usr/bin/ssh" : String).toList.head? := by rw [h]
  rw [show ((vscodeBlock v).toList.head?) = some 'f' from rfl] at h2
  simp at h2

/-- Claim C6: the renderer's output contains the `RSYNC_RSH` export line
exactly when the ssh slot of the classification result was populated (the
PATH lines begin with `PATH=` and the vscode block with `function`, so
none of them can be that line). -/
theorem c6_rsync_export_iff (conv : String → String) (pre app : List String)
    (vd ssh_path : Option String) :
    (("export RSYNC_RSH=/usr/bin/ssh" : String) ∈ buildConfigLines conv pre app vd ssh_path) ↔
      ssh_path.isSome = true := by
  constructor
  · intro hmem
    rcases ssh_path with _ | s
    · exfalso
      rcases vd with _ | v
      · simp only [buildConfigLines, List.mem_cons, List.not_mem_nil, or_false] at hmem
        rcases hmem with h | h
        · exact path_line_ne_export _ h.symm
        · exact path_line_ne_export _ h.symm
      · simp only [buildConfigLines, List.mem_append, List.mem_cons, List.not_mem_nil,
          or_false] at hmem
        rcases hmem with (h | h) | h
        · exact path_line_ne_export _ h.symm
        · exact path_line_ne_export _ h.symm
        · exact vscode_block_ne_export _ h.symm
    · rfl
  · intro hsome
    rcases ssh_path with _ | s
    · simp at hsome
    · rcases vd with _ | v <;> simp [buildConfigLines]

/-- Claim C10: the renderer always emits both PATH assignment lines; with
an empty converted prepend list the first line's value starts with an
empty path component (`":$PATH"`), and with an empty converted append list
the second line's value ends with one (`"$PATH:"`). -/
theorem c10_unconditional_path_lines (conv : String → String) (pre app : List String)
    (vd ssh_path : Option String) :
    2 ≤ (buildConfigLines conv pre app vd ssh_path).length ∧
    (buildConfigLines conv [] app vd ssh_path)[0]? = some "PATH=\":$PATH\"" ∧
    (buildConfigLines conv pre [] vd ssh_path)[1]? = some "PATH=\"$PATH:\"" := by
  refine ⟨?_, ?_, ?_⟩ <;> rcases ssh_path with _ | s <;> rcases vd with _ | v <;>
    simp [buildConfigLines] <;> decide

/-- Witness for claim C6 at concrete inputs: the export line is present
exactly when the ssh slot is populated. -/
theorem c6_rsync_export_iff_witness :
    (("export RSYNC_RSH=/usr/bin/ssh" : String) ∈
        buildConfigLines (fun s => s) [] [] none (some "C:\\s")) ∧
      ¬ (("export RSYNC_RSH=/usr/bin/ssh" : String) ∈
        buildConfigLines (fun s => s) [] [] none none) :=
  ⟨(c6_rsync_export_iff (fun s => s) [] [] none (some "C:\\s")).mpr (by decide),
    fun h => by
      have := (c6_rsync_export_iff (fun s => s) [] [] none none).mp h
      simp at this⟩
